import Mathlib

/-!
Verification of the `WebRTCManager` signaling client (public/js/webrtc.js of the
screen-sharing repository).

The JavaScript class is shallowly embedded: its mutable fields become a `Mgr`
structure, each method or event handler a pure function `Mgr → ... → Mgr`
(possibly paired with emitted data such as a scheduled timer delay or a fired
callback).  JavaScript `Map`s are modelled as association lists with
`Map`-faithful operations (`mget`, `mset`, `mdel`): `set` replaces in place or
appends, `delete` removes the key.  The lazy initialisation of
`this.pendingIceCandidates` (the field starts `undefined` and is created on
first use) is observationally an empty map and is modelled as `[]`.

External collaborators are modelled at their interface: an
`RTCPeerConnection` is a record of its connection state, signaling state,
remote description, and the ordered list of candidates that have been applied
to it via `addIceCandidate`.  `setRemoteDescription` of a valid offer/answer
always installs a description with a nonempty `type`, so
`pc.remoteDescription && pc.remoteDescription.type` is modelled as the
`Option` being `some`.  Network sends, logging and media streams are not
observable to any claim below except where noted and are omitted; DOM/media
provider failures are not modelled (the happy path of every `try` block is
taken).
-/

namespace Screen

/-- A JS `Map` keyed by user id, as an association list. -/
abbrev JMap (β : Type) := List (String × β)

/-- `Map.get`: first value stored under `k`. -/
def mget {β : Type} (k : String) : JMap β → Option β
  | [] => none
  | (k₁, v) :: rest => if k₁ = k then some v else mget k rest

/-- `Map.set`: replace the entry for `k` in place, or append it. -/
def mset {β : Type} (k : String) (v : β) : JMap β → JMap β
  | [] => [(k, v)]
  | (k₁, v₁) :: rest => if k₁ = k then (k, v) :: rest else (k₁, v₁) :: mset k v rest

/-- `Map.delete`: remove every entry for `k` (at most one under the key-uniqueness
invariant the JS `Map` guarantees). -/
def mdel {β : Type} (k : String) (l : JMap β) : JMap β :=
  l.filter (fun p => decide (p.1 ≠ k))

/-- Keys of the map, in insertion order. -/
def mkeys {β : Type} (l : JMap β) : List String := l.map Prod.fst

/-- A JS `Map` never holds two entries under one key. -/
def nodupKeys {β : Type} (l : JMap β) : Prop := (mkeys l).Nodup

/-- `RTCPeerConnection.connectionState` values. -/
inductive ConnState where
  | new | connecting | connected | disconnected | failed | closed
  deriving DecidableEq, Repr

/-- `RTCPeerConnection.signalingState` values used by the code. -/
inductive SigState where
  | stable | haveLocalOffer | haveRemoteOffer
  deriving DecidableEq, Repr

/-- An SDP session description (payload opaque to the control plane). -/
abbrev Desc := String

/-- An ICE candidate (payload opaque to the control plane). -/
abbrev Cand := Nat

/-- The observable interface state of one `RTCPeerConnection`.  `applied` is the
sequence of remote candidates accepted by `addIceCandidate`, in call order. -/
structure PeerConn where
  connectionState : ConnState
  signalingState : SigState
  remoteDescription : Option Desc
  applied : List Cand
  deriving DecidableEq, Repr

/-- A freshly constructed `new RTCPeerConnection(config)`. -/
def freshPeerConn : PeerConn :=
  { connectionState := ConnState.new
    signalingState := SigState.stable
    remoteDescription := none
    applied := [] }

/-- `this.wsState` values. -/
inductive WsState where
  | disconnected | connecting | connected | reconnecting | failed
  deriving DecidableEq, Repr

/-- A presenter-table entry: `{username, share_type}`. -/
structure PresenterInfo where
  username : String
  shareType : String
  deriving DecidableEq, Repr

/-- The mutable state of a `WebRTCManager` instance (the fields the verified
claims observe). -/
structure Mgr where
  wsState : WsState
  reconnectAttempts : Nat
  maxReconnectAttempts : Nat
  reconnectDelay : Nat
  maxReconnectDelay : Nat
  shouldReconnect : Bool
  manualDisconnect : Bool
  pingActive : Bool
  peerConnections : JMap PeerConn
  viewerAudioConnections : JMap PeerConn
  pendingIceCandidates : JMap (List Cand)
  remoteStreams : JMap Nat
  presenters : JMap PresenterInfo
  isScreenSharing : Bool
  isCameraSharing : Bool
  maxPresenters : Nat
  deriving DecidableEq, Repr

/-- The constructor's initial state. -/
def initMgr : Mgr :=
  { wsState := WsState.disconnected
    reconnectAttempts := 0
    maxReconnectAttempts := 10
    reconnectDelay := 1000
    maxReconnectDelay := 30000
    shouldReconnect := true
    manualDisconnect := false
    pingActive := false
    peerConnections := []
    viewerAudioConnections := []
    pendingIceCandidates := []
    remoteStreams := []
    presenters := []
    isScreenSharing := false
    isCameraSharing := false
    maxPresenters := 2 }

/-- `startReconnect()`.  Returns the new state together with the delay of the
timer it schedules, if any (`none` when it returns without calling
`setTimeout`).  The `onReconnecting` / `onConnectionStateChange` callback
invocations carry no state and are omitted. -/
def startReconnect (m : Mgr) : Mgr × Option Nat :=
  if m.maxReconnectAttempts ≤ m.reconnectAttempts then
    ({ m with wsState := WsState.failed }, none)
  else if m.wsState = WsState.reconnecting then
    (m, none)
  else
    let attempts := m.reconnectAttempts + 1
    let currentDelay := min (m.reconnectDelay * 2 ^ (attempts - 1)) m.maxReconnectDelay
    ({ m with wsState := WsState.reconnecting, reconnectAttempts := attempts },
      some currentDelay)

/-- Iterate `startReconnect`, discarding the scheduled delays. -/
def startReconnectIter : Nat → Mgr → Mgr
  | 0, m => m
  | n + 1, m => startReconnectIter n (startReconnect m).1

/-- The `ws.onopen` handler.  The returned `Bool` records whether the
`onReconnected` notification fires (the code invokes it when a callback is
registered; registration is external input, so the flag means "would fire"). -/
def wsOnOpen (m : Mgr) : Mgr × Bool :=
  let m₁ := { m with wsState := WsState.connected }
  let s :=
    if 0 < m₁.reconnectAttempts then
      ({ m₁ with reconnectAttempts := 0, reconnectDelay := 1000 }, true)
    else (m₁, false)
  ({ s.1 with pingActive := true }, s.2)

/-- `event.code === 1000 || event.code >= 4000` (1000: normal close,
4001: kicked, 4002: room ended). -/
def isManualClose (code : Nat) : Bool :=
  code == 1000 || decide (4000 ≤ code)

/-- The `ws.onclose` handler.  Returns the new state and the delay of a
reconnect timer if one was scheduled by the `startReconnect()` call. -/
def wsOnClose (m : Mgr) (code : Nat) : Mgr × Option Nat :=
  let m₁ := { m with wsState := WsState.disconnected, pingActive := false }
  if !isManualClose code && !m₁.manualDisconnect && m₁.shouldReconnect then
    startReconnect m₁
  else
    (m₁, none)

/-- The body of the `setTimeout` callback scheduled by `startReconnect`, at
firing time.  `token` is the value of `Auth.getToken()` at that moment.  With
no token the code logs and calls `startReconnect()` again; with a token it
calls `createWebSocketConnection`, whose synchronous part sets
`wsState = "connecting"` (the rest is driven by `ws` events). -/
def reconnectTimerFired (m : Mgr) (token : Option String) : Mgr × Option Nat :=
  match token with
  | none => startReconnect m
  | some _ => ({ m with wsState := WsState.connecting }, none)

/-- `connect()` up to the synchronous part of `createWebSocketConnection`. -/
def connectStart (m : Mgr) : Mgr :=
  { m with wsState := WsState.connecting }

/-- A manager that has constructed, connected, and received `onopen`. -/
def connectedMgr : Mgr :=
  (wsOnOpen (connectStart initMgr)).1

/-- The repeated-failure scenario: starting from a connected manager, the
transport closes with an abnormal code (1006), the scheduled attempt fails and
closes abnormally again, and so on.  `(reconnectChain n).2` is the delay
scheduled by the `n`-th `startReconnect` call of the chain (the timer before
attempt `n`). -/
def reconnectChain : Nat → Mgr × Option Nat
  | 0 => (connectedMgr, none)
  | n + 1 => wsOnClose (reconnectChain n).1 1006

/-- `canShare()`. -/
def Mgr.canShare (m : Mgr) : Bool :=
  if m.isScreenSharing || m.isCameraSharing then true
  else decide ((mkeys m.presenters).length < m.maxPresenters)

/-- `createPeerConnection(userId)`: reuse an existing connection unless it is
`failed` or `closed`; otherwise construct a fresh one and store it.  The
handlers it installs are modelled as the separate event functions below. -/
def createPeerConnection (m : Mgr) (userId : String) : Mgr × PeerConn :=
  match mget userId m.peerConnections with
  | some pc =>
    if pc.connectionState ≠ ConnState.failed ∧ pc.connectionState ≠ ConnState.closed then
      (m, pc)
    else
      ({ m with peerConnections := mset userId freshPeerConn m.peerConnections },
        freshPeerConn)
  | none =>
    ({ m with peerConnections := mset userId freshPeerConn m.peerConnections },
      freshPeerConn)

/-- `handleOffer(fromUserId, sdp)`: ensure a connection, set the remote
description, apply every queued candidate in order (each `addIceCandidate`
failure is logged and skipped; failures are not modelled, so all apply),
delete the queue entry, then create and set the local answer (signaling state
`have-remote-offer → stable`).  The `answer` network send is not modelled. -/
def handleOffer (m : Mgr) (fromUserId : String) (sdp : Desc) : Mgr :=
  let mp : Mgr × PeerConn :=
    match mget fromUserId m.peerConnections with
    | some pc => (m, pc)
    | none => createPeerConnection m fromUserId
  let m₀ := mp.1
  let pc := mp.2
  let pc₁ : PeerConn :=
    { pc with remoteDescription := some sdp, signalingState := SigState.haveRemoteOffer }
  let queued := (mget fromUserId m₀.pendingIceCandidates).getD []
  let pc₂ : PeerConn := { pc₁ with applied := pc₁.applied ++ queued }
  let pc₃ : PeerConn := { pc₂ with signalingState := SigState.stable }
  { m₀ with
    peerConnections := mset fromUserId pc₃ m₀.peerConnections
    pendingIceCandidates := mdel fromUserId m₀.pendingIceCandidates }

/-- `handleAnswer(fromUserId, sdp)`: accept the answer only in
`have-local-offer` (`→ stable`); otherwise log a warning and do nothing. -/
def handleAnswer (m : Mgr) (fromUserId : String) (sdp : Desc) : Mgr :=
  match mget fromUserId m.peerConnections with
  | some pc =>
    if pc.signalingState = SigState.haveLocalOffer then
      { m with
        peerConnections :=
          mset fromUserId
            { pc with remoteDescription := some sdp, signalingState := SigState.stable }
            m.peerConnections }
    else m
  | none => m

/-- First block of `handleIceCandidate(fromUserId, candidate)`: the video peer
connection — apply the candidate when a remote description is set, otherwise
enqueue it, keeping at most 50 per peer and dropping (with a warning) beyond.
`candidate` is `none` for a falsy (null) candidate. -/
def handleIceCandidateVideo (m : Mgr) (fromUserId : String) (candidate : Option Cand) : Mgr :=
  match mget fromUserId m.peerConnections, candidate with
  | some pc, some c =>
    match pc.remoteDescription with
    | some _ =>
      { m with
        peerConnections :=
          mset fromUserId { pc with applied := pc.applied ++ [c] } m.peerConnections }
    | none =>
      let queued := (mget fromUserId m.pendingIceCandidates).getD []
      if queued.length < 50 then
        { m with pendingIceCandidates := mset fromUserId (queued ++ [c]) m.pendingIceCandidates }
      else m
  | _, _ => m

/-- Second block of `handleIceCandidate`: a viewer-audio connection under the
same id (host side) — apply only when its remote description is set; no
queueing. -/
def handleIceCandidateAudio (m : Mgr) (fromUserId : String) (candidate : Option Cand) : Mgr :=
  match mget fromUserId m.viewerAudioConnections, candidate with
  | some apc, some c =>
    match apc.remoteDescription with
    | some _ =>
      { m with
        viewerAudioConnections :=
          mset fromUserId { apc with applied := apc.applied ++ [c] } m.viewerAudioConnections }
    | none => m
  | _, _ => m

/-- `handleIceCandidate(fromUserId, candidate)`: the video block, then the
viewer-audio block (the two blocks run in sequence in the source). -/
def handleIceCandidate (m : Mgr) (fromUserId : String) (candidate : Option Cand) : Mgr :=
  handleIceCandidateAudio (handleIceCandidateVideo m fromUserId candidate) fromUserId candidate

/-- `closePeerConnection(userId)`: close and drop the connection, its pending
candidate queue, and its remote stream (track teardown is external). -/
def closePeerConnection (m : Mgr) (userId : String) : Mgr :=
  { m with
    peerConnections := mdel userId m.peerConnections
    pendingIceCandidates := mdel userId m.pendingIceCandidates
    remoteStreams := mdel userId m.remoteStreams }

/-- `cleanupUserResources(userId)`. -/
def cleanupUserResources (m : Mgr) (userId : String) : Mgr :=
  { m with
    pendingIceCandidates := mdel userId m.pendingIceCandidates
    remoteStreams := mdel userId m.remoteStreams }

/-- The browser moving `pc.connectionState` for `userId` to `cs`, followed by
the installed `onconnectionstatechange` handler: on `failed`/`disconnected`
the pending candidate queue for the peer is cleared; on `closed` all the
peer's resources are cleaned up. -/
def connStateChange (m : Mgr) (userId : String) (cs : ConnState) : Mgr :=
  match mget userId m.peerConnections with
  | none => m
  | some pc =>
    let m₁ :=
      { m with
        peerConnections := mset userId { pc with connectionState := cs } m.peerConnections }
    if cs = ConnState.failed ∨ cs = ConnState.disconnected then
      { m₁ with pendingIceCandidates := mdel userId m₁.pendingIceCandidates }
    else if cs = ConnState.closed then
      cleanupUserResources m₁ userId
    else m₁

/-- The registry-touching operations, as an event language over which
executions are arbitrary interleavings. -/
inductive Op where
  | create (userId : String)
  | close (userId : String)
  | offer (userId : String) (sdp : Desc)
  | answer (userId : String) (sdp : Desc)
  | ice (userId : String) (candidate : Option Cand)
  | connState (userId : String) (cs : ConnState)

/-- One step of an execution. -/
def stepOp (m : Mgr) : Op → Mgr
  | Op.create userId => (createPeerConnection m userId).1
  | Op.close userId => closePeerConnection m userId
  | Op.offer userId sdp => handleOffer m userId sdp
  | Op.answer userId sdp => handleAnswer m userId sdp
  | Op.ice userId c => handleIceCandidate m userId c
  | Op.connState userId cs => connStateChange m userId cs

/-- Run a sequence of operations. -/
def runOps (m : Mgr) (ops : List Op) : Mgr := ops.foldl stepOp m

/-- Concrete state: a reconnecting manager whose attempt budget is exhausted
and whose timer has just fired with a token available (so the transport is
reopening); reached from the failure chain. -/
def exhaustedCloseMgr : Mgr :=
  (reconnectTimerFired (reconnectChain 10).1 (some "tok")).1

/-- Concrete state: constructor state with the attempt counter at the cap. -/
def mgrAtCap : Mgr :=
  { initMgr with reconnectAttempts := 10, wsState := WsState.disconnected }

/-- Concrete state: mid-reconnect, four failed attempts so far. -/
def mgrMidReconnect : Mgr :=
  { initMgr with reconnectAttempts := 4, wsState := WsState.connecting }

/-- Concrete state: one known peer with no remote description and two queued
candidates. -/
def mgrQueued : Mgr :=
  { initMgr with
    peerConnections := [("alice", freshPeerConn)]
    pendingIceCandidates := [("alice", [7, 8])] }

/-- Concrete state: one known peer in `stable` signaling state. -/
def mgrStablePeer : Mgr :=
  { initMgr with peerConnections := [("bob", freshPeerConn)] }

/-- Concrete state: presenter table full (two presenters), local user not
sharing. -/
def mgrFullTable : Mgr :=
  { initMgr with
    presenters :=
      [("p1", { username := "A", shareType := "screen" }),
       ("p2", { username := "B", shareType := "camera" })] }

/-- Concrete state: local user screen-sharing with a full presenter table. -/
def mgrSharingFull : Mgr :=
  { mgrFullTable with isScreenSharing := true }

end Screen

namespace Screen

/-! ## Association-list (`Map`) lemmas -/

theorem mget_mset_self {β : Type} (k : String) (v : β) (l : JMap β) :
    mget k (mset k v l) = some v := by
  induction l with
  | nil => simp [mset, mget]
  | cons p rest ih =>
    obtain ⟨k₁, v₁⟩ := p
    by_cases h : k₁ = k
    · simp [mset, h, mget]
    · simp [mset, h, mget, ih]

theorem mget_mdel_self {β : Type} (k : String) (l : JMap β) :
    mget k (mdel k l) = none := by
  induction l with
  | nil => simp [mdel, mget]
  | cons p rest ih =>
    obtain ⟨k₁, v₁⟩ := p
    by_cases h : k₁ = k
    · simpa [mdel, h] using ih
    · simpa [mdel, mget, h] using ih

theorem mset_cons_eq {β : Type} (k : String) (v v₁ : β) (rest : JMap β) :
    mset k v ((k, v₁) :: rest) = (k, v) :: rest := by
  simp [mset]

theorem mset_cons_ne {β : Type} (k k₁ : String) (v v₁ : β) (rest : JMap β)
    (h : k₁ ≠ k) : mset k v ((k₁, v₁) :: rest) = (k₁, v₁) :: mset k v rest := by
  simp [mset, h]

theorem mkeys_cons {β : Type} (k : String) (v : β) (rest : JMap β) :
    mkeys ((k, v) :: rest) = k :: mkeys rest := rfl

theorem mem_mkeys_mset {β : Type} (a k : String) (v : β) (l : JMap β) :
    a ∈ mkeys (mset k v l) ↔ a = k ∨ a ∈ mkeys l := by
  induction l with
  | nil => simp [mset, mkeys]
  | cons p rest ih =>
    obtain ⟨k₁, v₁⟩ := p
    by_cases h : k₁ = k
    · subst h
      rw [mset_cons_eq, mkeys_cons, mkeys_cons]
      simp only [List.mem_cons]
      tauto
    · rw [mset_cons_ne k k₁ v v₁ rest h, mkeys_cons, mkeys_cons]
      simp only [List.mem_cons]
      rw [ih]
      tauto

theorem nodupKeys_mset {β : Type} (k : String) (v : β) (l : JMap β)
    (h : nodupKeys l) : nodupKeys (mset k v l) := by
  induction l with
  | nil => simp [nodupKeys, mset, mkeys]
  | cons p rest ih =>
    obtain ⟨k₁, v₁⟩ := p
    rw [nodupKeys, mkeys_cons, List.nodup_cons] at h
    by_cases hk : k₁ = k
    · subst hk
      rw [nodupKeys, mset_cons_eq, mkeys_cons, List.nodup_cons]
      exact h
    · have h₁ := ih h.2
      rw [nodupKeys, mset_cons_ne k k₁ v v₁ rest hk, mkeys_cons, List.nodup_cons]
      refine ⟨fun hmem => ?_, h₁⟩
      rcases (mem_mkeys_mset k₁ k v rest).mp hmem with h₂ | h₂
      · exact hk h₂
      · exact h.1 h₂

theorem nodupKeys_mdel {β : Type} (k : String) (l : JMap β)
    (h : nodupKeys l) : nodupKeys (mdel k l) :=
  List.Nodup.sublist (List.Sublist.map Prod.fst (List.filter_sublist l)) h

/-! ## Helper lemmas about the operations -/

/-- The exhausted branch of `startReconnect`. -/
theorem startReconnect_of_exhausted (m : Mgr)
    (h : m.maxReconnectAttempts ≤ m.reconnectAttempts) :
    startReconnect m = ({ m with wsState := WsState.failed }, none) := by
  simp [startReconnect, h]

/-- Once the attempt budget is exhausted, iterating `startReconnect` never
changes the counter or the cap. -/
theorem startReconnectIter_exhausted (n : Nat) (m : Mgr)
    (h : m.maxReconnectAttempts ≤ m.reconnectAttempts) :
    (startReconnectIter n m).reconnectAttempts = m.reconnectAttempts ∧
    (startReconnectIter n m).maxReconnectAttempts = m.maxReconnectAttempts := by
  induction n generalizing m with
  | zero => exact ⟨rfl, rfl⟩
  | succ n ih =>
    rw [startReconnectIter, startReconnect_of_exhausted m h]
    exact ih { m with wsState := WsState.failed } h

/-- The viewer-audio block never touches the video registry. -/
theorem handleIceCandidateAudio_peerConnections (m : Mgr) (fromUserId : String)
    (candidate : Option Cand) :
    (handleIceCandidateAudio m fromUserId candidate).peerConnections = m.peerConnections := by
  unfold handleIceCandidateAudio
  rcases h : mget fromUserId m.viewerAudioConnections with _ | apc
  · cases candidate <;> simp
  · cases candidate with
    | none => simp
    | some c => rcases hd : apc.remoteDescription with _ | d <;> simp [h, hd]

/-- The viewer-audio block never touches the pending-candidate queues. -/
theorem handleIceCandidateAudio_pending (m : Mgr) (fromUserId : String)
    (candidate : Option Cand) :
    (handleIceCandidateAudio m fromUserId candidate).pendingIceCandidates =
      m.pendingIceCandidates := by
  unfold handleIceCandidateAudio
  rcases h : mget fromUserId m.viewerAudioConnections with _ | apc
  · cases candidate <;> simp
  · cases candidate with
    | none => simp
    | some c => rcases hd : apc.remoteDescription with _ | d <;> simp [h, hd]

/-- Each registry-touching operation keeps the peer registry's keys unique. -/
theorem nodupKeys_stepOp (m : Mgr) (op : Op) (h : nodupKeys m.peerConnections) :
    nodupKeys (stepOp m op).peerConnections := by
  cases op with
  | create userId =>
    unfold stepOp createPeerConnection
    rcases hpc : mget userId m.peerConnections with _ | pc
    · simpa [hpc] using nodupKeys_mset userId freshPeerConn _ h
    · by_cases hc : pc.connectionState ≠ ConnState.failed ∧ pc.connectionState ≠ ConnState.closed
      · simpa [hpc, hc] using h
      · simpa [hpc, hc] using nodupKeys_mset userId freshPeerConn _ h
  | close userId =>
    unfold stepOp closePeerConnection
    exact nodupKeys_mdel userId _ h
  | offer userId sdp =>
    unfold stepOp handleOffer createPeerConnection
    rcases hpc : mget userId m.peerConnections with _ | pc
    · simpa [hpc] using nodupKeys_mset userId _ _ (nodupKeys_mset userId freshPeerConn _ h)
    · simpa [hpc] using nodupKeys_mset userId _ _ h
  | answer userId sdp =>
    unfold stepOp handleAnswer
    rcases hpc : mget userId m.peerConnections with _ | pc
    · simpa [hpc] using h
    · by_cases hs : pc.signalingState = SigState.haveLocalOffer
      · simpa [hpc, hs] using nodupKeys_mset userId _ _ h
      · simpa [hpc, hs] using h
  | ice userId c =>
    show nodupKeys (handleIceCandidate m userId c).peerConnections
    unfold handleIceCandidate
    rw [handleIceCandidateAudio_peerConnections]
    unfold handleIceCandidateVideo
    rcases hpc : mget userId m.peerConnections with _ | pc
    · cases c <;> simpa using h
    · cases c with
      | none => simpa using h
      | some cc =>
        rcases hrd : pc.remoteDescription with _ | d
        · by_cases hq : ((mget userId m.pendingIceCandidates).getD []).length < 50
          · simpa [hpc, hrd, hq] using h
          · simpa [hpc, hrd, hq] using h
        · simpa [hpc, hrd] using nodupKeys_mset userId _ _ h
  | connState userId cs =>
    unfold stepOp connStateChange
    rcases hpc : mget userId m.peerConnections with _ | pc
    · simpa [hpc] using h
    · by_cases h₁ : cs = ConnState.failed ∨ cs = ConnState.disconnected
      · simpa [hpc, h₁] using nodupKeys_mset userId _ _ h
      · by_cases h₂ : cs = ConnState.closed
        · simpa [hpc, h₁, h₂, cleanupUserResources] using nodupKeys_mset userId _ _ h
        · simpa [hpc, h₁, h₂] using nodupKeys_mset userId _ _ h

/-- Key uniqueness of the peer registry holds after any sequence of
operations, hence at every point of every execution. -/
theorem nodupKeys_runOps (m : Mgr) (ops : List Op) (h : nodupKeys m.peerConnections) :
    nodupKeys (runOps m ops).peerConnections := by
  induction ops generalizing m with
  | nil => exact h
  | cons op rest ih => exact ih (stepOp m op) (nodupKeys_stepOp m op h)

/-! ## Claim theorems -/

/-- C1: in a run of successive reconnect attempts with no intervening
successful connect, the delay scheduled before attempt `n` (1 ≤ n ≤ 10) is
`min(1000 · 2^(n-1), 30000)` ms; in particular 1000 ms before attempt 1,
16000 ms before attempt 5, and 30000 ms (capped) before attempt 6. -/
theorem reconnect_backoff_delay :
    (∀ n, n < 11 → 1 ≤ n →
      (reconnectChain n).2 = some (min (1000 * 2 ^ (n - 1)) 30000)) ∧
    (reconnectChain 1).2 = some 1000 ∧
    (reconnectChain 5).2 = some 16000 ∧
    (reconnectChain 6).2 = some 30000 := by
  decide

/-- Witness for C1 at attempt 5. -/
theorem reconnect_backoff_delay_witness :
    5 < 11 ∧ 1 ≤ 5 ∧
    (reconnectChain 5).2 = some (min (1000 * 2 ^ (5 - 1)) 30000) :=
  ⟨by decide, by decide, reconnect_backoff_delay.1 5 (by decide) (by decide)⟩

/-- C2: once `maxReconnectAttempts` attempts have been consumed, the next
`startReconnect` leaves the manager in the `failed` state and schedules no
timer, and no number of further `startReconnect` calls ever schedules one. -/
theorem reconnect_exhaustion_terminal (m : Mgr)
    (h : m.maxReconnectAttempts ≤ m.reconnectAttempts) :
    (startReconnect m).1.wsState = WsState.failed ∧
    (startReconnect m).2 = none ∧
    ∀ n, (startReconnect (startReconnectIter n (startReconnect m).1)).2 = none := by
  rw [startReconnect_of_exhausted m h]
  refine ⟨rfl, rfl, fun n => ?_⟩
  obtain ⟨h₁, h₂⟩ :=
    startReconnectIter_exhausted n { m with wsState := WsState.failed } h
  have hex : (startReconnectIter n { m with wsState := WsState.failed }).maxReconnectAttempts ≤
      (startReconnectIter n { m with wsState := WsState.failed }).reconnectAttempts := by
    rw [h₁, h₂]; exact h
  rw [startReconnect_of_exhausted _ hex]

/-- Witness for C2 at the constructor state with the counter at the cap. -/
theorem reconnect_exhaustion_terminal_witness :
    mgrAtCap.maxReconnectAttempts ≤ mgrAtCap.reconnectAttempts ∧
    (startReconnect mgrAtCap).1.wsState = WsState.failed ∧
    (startReconnect mgrAtCap).2 = none ∧
    (startReconnect (startReconnectIter 3 (startReconnect mgrAtCap).1)).2 = none :=
  ⟨by decide, (reconnect_exhaustion_terminal mgrAtCap (by decide)).1,
   (reconnect_exhaustion_terminal mgrAtCap (by decide)).2.1,
   (reconnect_exhaustion_terminal mgrAtCap (by decide)).2.2 3⟩

/-- C3: when the transport opens after at least one reconnect attempt, the
attempt counter resets to 0, the delay resets to 1000 ms, the `reconnected`
notification fires, and the state is `connected`. -/
theorem reconnect_success_reset (m : Mgr) (h : 0 < m.reconnectAttempts) :
    (wsOnOpen m).1.wsState = WsState.connected ∧
    (wsOnOpen m).1.reconnectAttempts = 0 ∧
    (wsOnOpen m).1.reconnectDelay = 1000 ∧
    (wsOnOpen m).2 = true := by
  simp [wsOnOpen, h]

/-- Witness for C3 after four failed attempts. -/
theorem reconnect_success_reset_witness :
    0 < mgrMidReconnect.reconnectAttempts ∧
    (wsOnOpen mgrMidReconnect).1.wsState = WsState.connected ∧
    (wsOnOpen mgrMidReconnect).1.reconnectAttempts = 0 ∧
    (wsOnOpen mgrMidReconnect).1.reconnectDelay = 1000 ∧
    (wsOnOpen mgrMidReconnect).2 = true :=
  ⟨by decide, (reconnect_success_reset mgrMidReconnect (by decide)).1,
   (reconnect_success_reset mgrMidReconnect (by decide)).2.1,
   (reconnect_success_reset mgrMidReconnect (by decide)).2.2.1,
   (reconnect_success_reset mgrMidReconnect (by decide)).2.2.2⟩

/-- C5: `handleAnswer` for a peer whose signaling state is not
`have-local-offer` is a complete no-op: the manager state (hence the peer's
phase and remote description) is unchanged and no error is raised. -/
theorem handleAnswer_wrong_state_noop (m : Mgr) (fromUserId : String) (sdp : Desc)
    (pc : PeerConn) (hpc : mget fromUserId m.peerConnections = some pc)
    (hstate : pc.signalingState ≠ SigState.haveLocalOffer) :
    handleAnswer m fromUserId sdp = m := by
  simp [handleAnswer, hpc, hstate]

/-- Witness for C5 on a `stable`-state peer. -/
theorem handleAnswer_wrong_state_noop_witness :
    mget "bob" mgrStablePeer.peerConnections = some freshPeerConn ∧
    freshPeerConn.signalingState ≠ SigState.haveLocalOffer ∧
    handleAnswer mgrStablePeer "bob" "sdpA" = mgrStablePeer :=
  ⟨by decide, by decide,
   handleAnswer_wrong_state_noop mgrStablePeer "bob" "sdpA" freshPeerConn
     (by decide) (by decide)⟩

/-- C6: `canShare()` is true whenever the local user is already sharing,
false when the presenter table holds `maxPresenters` (2) entries and the
local user is not sharing, and true whenever the table is below capacity. -/
theorem canShare_spec (m : Mgr) (hmax : m.maxPresenters = 2) :
    ((m.isScreenSharing || m.isCameraSharing) = true → m.canShare = true) ∧
    ((mkeys m.presenters).length = 2 → m.isScreenSharing = false →
      m.isCameraSharing = false → m.canShare = false) ∧
    ((mkeys m.presenters).length < m.maxPresenters → m.canShare = true) := by
  refine ⟨fun h => ?_, fun hlen hs hc => ?_, fun hlt => ?_⟩
  · simp [Mgr.canShare, h]
  · simp [Mgr.canShare, hs, hc, hlen, hmax]
  · by_cases h : (m.isScreenSharing || m.isCameraSharing) = true
    · simp [Mgr.canShare, h]
    · simp [Mgr.canShare, h, hlt]

/-- Witness for C6: sharing at a full table, full table without sharing, and
an empty table. -/
theorem canShare_spec_witness :
    mgrSharingFull.canShare = true ∧
    mgrFullTable.canShare = false ∧
    initMgr.canShare = true :=
  ⟨(canShare_spec mgrSharingFull (by decide)).1 (by decide),
   (canShare_spec mgrFullTable (by decide)).2.1 (by decide) (by decide) (by decide),
   (canShare_spec initMgr (by decide)).2.2 (by decide)⟩

/-- C7 (amended): on transport close, a normal/explicit code (1000 or ≥ 4000,
covering kicked 4001 and room-ended 4002) leaves the state `disconnected`
with no retry scheduled; any other code — when the session was not manually
disconnected, auto-reconnect is enabled, and fewer than
`maxReconnectAttempts` attempts have been made — moves the state to
`reconnecting` and schedules a reconnect timer. -/
theorem close_code_routing (m : Mgr) (code : Nat) :
    (isManualClose code = true →
      (wsOnClose m code).1.wsState = WsState.disconnected ∧
      (wsOnClose m code).2 = none) ∧
    (isManualClose code = false → m.manualDisconnect = false →
      m.shouldReconnect = true →
      m.reconnectAttempts < m.maxReconnectAttempts →
      (wsOnClose m code).1.wsState = WsState.reconnecting ∧
      (wsOnClose m code).2 =
        some (min (m.reconnectDelay * 2 ^ m.reconnectAttempts) m.maxReconnectDelay)) := by
  constructor
  · intro h
    simp [wsOnClose, h]
  · intro h₁ h₂ h₃ h₄
    have hnot : ¬ m.maxReconnectAttempts ≤ m.reconnectAttempts := Nat.not_le.mpr h₄
    simp [wsOnClose, h₁, h₂, h₃, startReconnect, hnot]

/-- Witness for C7 (amended): normal close from a connected manager, and an
abnormal close from a connected manager with budget remaining. -/
theorem close_code_routing_witness :
    ((wsOnClose connectedMgr 1000).1.wsState = WsState.disconnected ∧
      (wsOnClose connectedMgr 1000).2 = none) ∧
    ((wsOnClose connectedMgr 1006).1.wsState = WsState.reconnecting ∧
      (wsOnClose connectedMgr 1006).2 =
        some (min (connectedMgr.reconnectDelay * 2 ^ connectedMgr.reconnectAttempts)
          connectedMgr.maxReconnectDelay)) :=
  ⟨(close_code_routing connectedMgr 1000).1 (by decide),
   (close_code_routing connectedMgr 1006).2 (by decide) (by decide) (by decide) (by decide)⟩

/-- C7 counterexample to the claim as stated: the transport closes with the
abnormal code 1006 on a session that was never manually disconnected and has
auto-reconnect enabled, yet — the attempt budget being exhausted — the state
becomes `failed`, not `reconnecting`, and no reconnect timer is scheduled. -/
theorem close_code_routing_cex :
    isManualClose 1006 = false ∧
    exhaustedCloseMgr.manualDisconnect = false ∧
    exhaustedCloseMgr.shouldReconnect = true ∧
    exhaustedCloseMgr.reconnectAttempts = 10 ∧
    (wsOnClose exhaustedCloseMgr 1006).1.wsState = WsState.failed ∧
    (wsOnClose exhaustedCloseMgr 1006).1.wsState ≠ WsState.reconnecting ∧
    (wsOnClose exhaustedCloseMgr 1006).2 = none := by
  decide

/-- C8: at the failing input — the first reconnect timer fires while
`Auth.getToken()` returns nothing — the code re-enters `startReconnect` while
`wsState` is still `reconnecting`, so the re-entrancy guard returns without
scheduling anything: the state is unchanged and no further timer exists,
contradicting the documented immediately-retry behavior. -/
theorem token_missing_retry_stalls :
    (reconnectChain 1).1.wsState = WsState.reconnecting ∧
    (reconnectChain 1).2 = some 1000 ∧
    reconnectTimerFired (reconnectChain 1).1 none = ((reconnectChain 1).1, none) := by
  decide

/-- C10: an ICE candidate from an id with neither a video peer connection nor
a viewer-audio connection leaves the whole manager state untouched: nothing
is applied, nothing is queued, no record is created, no error is raised. -/
theorem handleIceCandidate_unknown_peer_noop (m : Mgr) (fromUserId : String)
    (candidate : Option Cand)
    (h₁ : mget fromUserId m.peerConnections = none)
    (h₂ : mget fromUserId m.viewerAudioConnections = none) :
    handleIceCandidate m fromUserId candidate = m := by
  have hv : handleIceCandidateVideo m fromUserId candidate = m := by
    unfold handleIceCandidateVideo
    cases candidate <;> simp [h₁]
  rw [handleIceCandidate, hv]
  unfold handleIceCandidateAudio
  cases candidate <;> simp [h₂]

/-- Witness for C10 on the constructor state. -/
theorem handleIceCandidate_unknown_peer_noop_witness :
    mget "zoe" initMgr.peerConnections = none ∧
    mget "zoe" initMgr.viewerAudioConnections = none ∧
    handleIceCandidate initMgr "zoe" (some 5) = initMgr :=
  ⟨rfl, rfl, handleIceCandidate_unknown_peer_noop initMgr "zoe" (some 5) rfl rfl⟩

/-- C4: for a registered peer whose remote description is not yet set, a
handled candidate is never applied (the registry is untouched) but appended
to that peer's FIFO queue while it holds fewer than 50 entries; at 50 the
candidate is dropped with the queue and registry untouched.  When
`handleOffer` sets the remote description, the queued candidates are applied
after the previously applied ones, in arrival order, and the queue entry is
discarded, so a drain can happen only once. -/
theorem pending_candidate_queue_spec (m : Mgr) (fromUserId : String) (pc : PeerConn)
    (c : Cand) (sdp : Desc)
    (hpc : mget fromUserId m.peerConnections = some pc)
    (hrd : pc.remoteDescription = none) :
    (((mget fromUserId m.pendingIceCandidates).getD []).length < 50 →
      (handleIceCandidate m fromUserId (some c)).peerConnections = m.peerConnections ∧
      mget fromUserId (handleIceCandidate m fromUserId (some c)).pendingIceCandidates =
        some ((mget fromUserId m.pendingIceCandidates).getD [] ++ [c])) ∧
    (¬ ((mget fromUserId m.pendingIceCandidates).getD []).length < 50 →
      (handleIceCandidate m fromUserId (some c)).peerConnections = m.peerConnections ∧
      (handleIceCandidate m fromUserId (some c)).pendingIceCandidates =
        m.pendingIceCandidates) ∧
    mget fromUserId (handleOffer m fromUserId sdp).peerConnections =
      some { connectionState := pc.connectionState
             signalingState := SigState.stable
             remoteDescription := some sdp
             applied := pc.applied ++ (mget fromUserId m.pendingIceCandidates).getD [] } ∧
    mget fromUserId (handleOffer m fromUserId sdp).pendingIceCandidates = none := by
  have hoffer : handleOffer m fromUserId sdp =
      { m with
        peerConnections :=
          mset fromUserId
            { connectionState := pc.connectionState
              signalingState := SigState.stable
              remoteDescription := some sdp
              applied := pc.applied ++ (mget fromUserId m.pendingIceCandidates).getD [] }
            m.peerConnections
        pendingIceCandidates := mdel fromUserId m.pendingIceCandidates } := by
    unfold handleOffer
    simp [hpc]
  refine ⟨fun hq => ?_, fun hq => ?_, ?_, ?_⟩
  · have hv : handleIceCandidateVideo m fromUserId (some c) =
        { m with
          pendingIceCandidates :=
            mset fromUserId ((mget fromUserId m.pendingIceCandidates).getD [] ++ [c])
              m.pendingIceCandidates } := by
      unfold handleIceCandidateVideo
      simp [hpc, hrd, hq]
    rw [handleIceCandidate, hv]
    constructor
    · rw [handleIceCandidateAudio_peerConnections]
    · rw [handleIceCandidateAudio_pending]
      exact mget_mset_self fromUserId _ m.pendingIceCandidates
  · have hv : handleIceCandidateVideo m fromUserId (some c) = m := by
      unfold handleIceCandidateVideo
      simp [hpc, hrd, hq]
    rw [handleIceCandidate, hv]
    exact ⟨handleIceCandidateAudio_peerConnections m fromUserId (some c),
      handleIceCandidateAudio_pending m fromUserId (some c)⟩
  · rw [hoffer]
    exact mget_mset_self fromUserId _ m.peerConnections
  · rw [hoffer]
    exact mget_mdel_self fromUserId m.pendingIceCandidates

/-- Witness for C4: a peer with two queued candidates; a third is enqueued
behind them, and `handleOffer` applies all queued candidates in order and
discards the queue. -/
theorem pending_candidate_queue_spec_witness :
    mget "alice" mgrQueued.peerConnections = some freshPeerConn ∧
    freshPeerConn.remoteDescription = none ∧
    ((handleIceCandidate mgrQueued "alice" (some 9)).peerConnections =
        mgrQueued.peerConnections ∧
      mget "alice" (handleIceCandidate mgrQueued "alice" (some 9)).pendingIceCandidates =
        some ((mget "alice" mgrQueued.pendingIceCandidates).getD [] ++ [9])) ∧
    mget "alice" (handleOffer mgrQueued "alice" "offerSdp").peerConnections =
      some { connectionState := freshPeerConn.connectionState
             signalingState := SigState.stable
             remoteDescription := some "offerSdp"
             applied :=
               freshPeerConn.applied ++
                 (mget "alice" mgrQueued.pendingIceCandidates).getD [] } ∧
    mget "alice" (handleOffer mgrQueued "alice" "offerSdp").pendingIceCandidates = none :=
  ⟨by decide, by decide,
   (pending_candidate_queue_spec mgrQueued "alice" freshPeerConn 9 "offerSdp"
     (by decide) (by decide)).1 (by decide),
   (pending_candidate_queue_spec mgrQueued "alice" freshPeerConn 9 "offerSdp"
     (by decide) (by decide)).2.2.1,
   (pending_candidate_queue_spec mgrQueued "alice" freshPeerConn 9 "offerSdp"
     (by decide) (by decide)).2.2.2⟩

/-- C9: the peer registry keeps at most one record per participant id at
every point of every operation sequence; `createPeerConnection` returns an
existing non-failed/non-closed link with the whole state unchanged, and
creates and stores a fresh link exactly when the id is absent or its link is
`failed`/`closed`. -/
theorem peer_registry_spec (m : Mgr) (userId : String) :
    (∀ pc, mget userId m.peerConnections = some pc →
      pc.connectionState ≠ ConnState.failed → pc.connectionState ≠ ConnState.closed →
      createPeerConnection m userId = (m, pc)) ∧
    (mget userId m.peerConnections = none →
      createPeerConnection m userId =
        ({ m with peerConnections := mset userId freshPeerConn m.peerConnections },
          freshPeerConn)) ∧
    (∀ pc, mget userId m.peerConnections = some pc →
      (pc.connectionState = ConnState.failed ∨ pc.connectionState = ConnState.closed) →
      createPeerConnection m userId =
        ({ m with peerConnections := mset userId freshPeerConn m.peerConnections },
          freshPeerConn)) ∧
    (nodupKeys m.peerConnections →
      ∀ ops, nodupKeys (runOps m ops).peerConnections) := by
  refine ⟨fun pc hpc h₁ h₂ => ?_, fun hnone => ?_, fun pc hpc hfc => ?_,
    fun h ops => nodupKeys_runOps m ops h⟩
  · simp [createPeerConnection, hpc, h₁, h₂]
  · simp [createPeerConnection, hnone]
  · have hno : ¬ (pc.connectionState ≠ ConnState.failed ∧
        pc.connectionState ≠ ConnState.closed) := by tauto
    simp [createPeerConnection, hpc, hno]

/-- Witness for C9: a healthy existing link is reused unchanged, a missing id
gets a fresh stored link, and key uniqueness survives a mixed operation
sequence. -/
theorem peer_registry_spec_witness :
    createPeerConnection mgrStablePeer "bob" = (mgrStablePeer, freshPeerConn) ∧
    createPeerConnection mgrStablePeer "dave" =
      ({ mgrStablePeer with
          peerConnections := mset "dave" freshPeerConn mgrStablePeer.peerConnections },
        freshPeerConn) ∧
    nodupKeys (runOps mgrStablePeer
      [Op.create "dave", Op.offer "dave" "s1", Op.ice "dave" (some 3),
        Op.close "bob"]).peerConnections :=
  ⟨(peer_registry_spec mgrStablePeer "bob").1 freshPeerConn (by decide) (by decide)
     (by decide),
   (peer_registry_spec mgrStablePeer "dave").2.1 (by decide),
   (peer_registry_spec mgrStablePeer "dave").2.2.2 (by unfold nodupKeys; decide)
     [Op.create "dave", Op.offer "dave" "s1", Op.ice "dave" (some 3), Op.close "bob"]⟩

end Screen
